import Mathlib

/-!
# go-giteeai: streaming response layer and error multiplexing

A shallow embedding of `client.go` (`isFailureStatusCode`, `handleErrorResp`,
`sendRequestStream`, `httpHeader`, `newRequest`, `sendRequest`, `fullURL`),
of `config.go`, of `checkPromptType` and `CreateCompletion` of `completion.go`,
of `WrapReader` of `image.go`, and of the stream session that
`sendRequestStream` opens.  Byte slices are lists of characters, Go's
`(value, error)` results are pairs or `Except`, and `nil` is `none`.

The JSON codec (`encoding/json`, `utils.JSONUnmarshaler`), the request
builder (`utils.RequestBuilder`) and the HTTP transport (`HTTPDoer`) are
collaborators of the library: they are taken as function parameters and never
given a fixed meaning.
-/

namespace giteeai

/-- Byte slices (`[]byte`). -/
abbrev Bytes := List Char

/-- An I/O failure of the underlying transport. -/
structure IOError where
  msg : String
deriving DecidableEq

/-- A decoding failure reported by the JSON codec. -/
structure JSONError where
  msg : String
deriving DecidableEq

/-- The dynamic value of `APIError.Code`, declared `any` (the integration
test switches on its being a `string`). -/
inductive AnyCode where
  | null
  | str (s : String)
  | num (n : Int)
deriving DecidableEq

/-- Modelled from the spec: the declaration of `APIError` (file `error.go`)
is missing.  It is the structured error "with message/type/code and HTTP
status"; `client.go` writes `HTTPStatus` and `HTTPStatusCode`, and the
integration test reads `Code` and `HTTPStatusCode`. -/
structure APIError where
  Code : AnyCode
  Message : String
  Type_ : String
  HTTPStatus : String
  HTTPStatusCode : Int
deriving DecidableEq

/-- What `RequestError.Err` can hold in this program: the JSON decoding
error or the partially decoded `*APIError`. -/
inductive ErrCause where
  | json (e : JSONError)
  | api (a : APIError)
deriving DecidableEq

/-- Modelled from the spec: the declaration of `RequestError` (file
`error.go`) is missing; its four fields are the ones of the struct literal
in `handleErrorResp`.  `Err = none` is a nil `error`. -/
structure RequestError where
  HTTPStatus : String
  HTTPStatusCode : Int
  Err : Option ErrCause
  Body : Bytes
deriving DecidableEq

/-- The `error` values this part of the library returns. -/
inductive GoError where
  /-- The end-of-stream signal `io.EOF`. -/
  | eof
  /-- The fatal stall error, too many empty reads. -/
  | tooManyEmptyStreamMessages
  /-- A payload that failed structured decoding. -/
  | unmarshal (e : JSONError)
  /-- A failure of the transport, propagated verbatim. -/
  | transport (e : IOError)
  /-- The wrapper `fmt.Errorf("error, reading response body: %w", err)`. -/
  | readBody (e : IOError)
  | request (r : RequestError)
  | api (a : APIError)
  /-- A package-level error variable, by its name. -/
  | named (name : String)
deriving DecidableEq

/-- An `http.Header`: keys with their values. -/
abbrev Header := List (String × List String)

/-- The method `http.Header.Set`: replaces the values of `key` by the single
value `value` (the keys set in this file are already canonical). -/
def Header.Set (h : Header) (key value : String) : Header :=
  (key, [value]) :: h.filter (fun kv => kv.1 ≠ key)

/-- A response body as a reader: the bytes it yields and, after them, either
end-of-input (`err = none`) or an I/O failure. -/
structure BodyReader where
  data : Bytes
  err : Option IOError
deriving DecidableEq

/-- The function `io.ReadAll`: everything the reader yields, and its failure. -/
def ReadAll (b : BodyReader) : Bytes × Option IOError :=
  (b.data, b.err)

/-- The fields of `http.Response` the library reads. -/
structure Response where
  Status : String
  StatusCode : Int
  Header : Header
  Body : BodyReader
deriving DecidableEq

/-- The fields of `http.Request` the library writes. -/
structure Request where
  Method : String
  URL : String
  Header : Header
  Body : Bytes
deriving DecidableEq

/-- The state of an `ErrorResponse` variable after `json.Unmarshal(body, &errRes)`:
the returned error and the `Error *APIError` field, which the codec may
have filled in even when it reports a failure. -/
structure UnmarshalResult where
  err : Option JSONError
  Error : Option APIError
deriving DecidableEq

/-- The JSON codec applied to an `ErrorResponse` target. -/
abbrev ErrorUnmarshaler := Bytes → UnmarshalResult

/-- The JSON codec held by a stream session (`utils.JSONUnmarshaler`), by the
two targets it is applied to: a stream payload of type `T`, and the error
envelope `ErrorResponse`. -/
structure Unmarshaler (T : Type) where
  payload : Bytes → Except JSONError T
  errorResponse : ErrorUnmarshaler

/-- The interface `HTTPDoer`. -/
abbrev HTTPDoer := Request → Except IOError Response

/-- The struct `ClientConfig` of `config.go`. -/
structure ClientConfig where
  authToken : String
  BaseURL : String
  AssistantVersion : String
  HTTPClient : HTTPDoer
  EmptyMessagesLimit : Nat

/-- The struct `Client`; the request and form builders play no part here. -/
structure Client where
  config : ClientConfig

def StatusOK : Int := 200

def StatusBadRequest : Int := 400

/-- The function `isFailureStatusCode` of `client.go`. -/
def isFailureStatusCode (resp : Response) : Bool :=
  decide (resp.StatusCode < StatusOK) || decide (resp.StatusCode ≥ StatusBadRequest)

/-- The method `Client.handleErrorResp` of `client.go`; `none` would be a nil
error.  `jsonUnmarshal` is `json.Unmarshal` on an `ErrorResponse`. -/
def handleErrorResp (jsonUnmarshal : ErrorUnmarshaler) (_c : Client) (resp : Response) :
    Option GoError :=
  match ReadAll resp.Body with
  | (_, some err) => some (.readBody err)
  | (body, none) =>
    let errRes := jsonUnmarshal body
    if errRes.err.isSome || errRes.Error.isNone then
      let reqErr : RequestError :=
        { HTTPStatus := resp.Status
          HTTPStatusCode := resp.StatusCode
          Err := errRes.err.map ErrCause.json
          Body := body }
      match errRes.Error with
      | some apiErr => some (.request { reqErr with Err := some (.api apiErr) })
      | none => some (.request reqErr)
    else
      match errRes.Error with
      | some apiErr =>
        some (.api { apiErr with HTTPStatus := resp.Status, HTTPStatusCode := resp.StatusCode })
      | none => none

/-- The type `httpHeader`, an `http.Header` under another name. -/
abbrev httpHeader := Header

/-- The method `httpHeader.Header`. -/
def httpHeader.Header (h : httpHeader) : Header := h

/-- Modelled from the spec: the Line Reader (file `stream_reader.go`) is
missing.  The `bufio.Reader` wrapped around a response body, seen through the
contract `nextLine`: what it has left to hand out. -/
structure LineReader where
  /-- The delimited lines not yet handed out, without their delimiter. -/
  lines : List Bytes
  /-- What follows the last line: end-of-stream, or an I/O failure. -/
  err : Option IOError
deriving DecidableEq

/-- Modelled from the spec: the Line Reader (file `stream_reader.go`) is
missing.  The delimited lines of a byte sequence, in order; content after the
last newline delimiter is "no more delimited content" and yields no line. -/
def splitLines : Bytes → List Bytes
  | [] => []
  | c :: cs =>
    if c = '\n' then [] :: splitLines cs
    else
      match splitLines cs with
      | [] => []
      | l :: ls => (c :: l) :: ls

/-- The call `bufio.NewReader(resp.Body)`. -/
def NewReader (b : BodyReader) : LineReader :=
  { lines := splitLines b.data, err := b.err }

/-- Modelled from the spec: the declaration of `streamReader[T]` (file
`stream_reader.go`) is missing.  The first six fields are those of the struct
literal in `sendRequestStream`, `none` being a nil field; the session state
`consecutiveEmptyReads`, `closed`, `terminalError` is the one of the spec's
data model; `reads` counts the calls made to the Line Reader, so that "no
transport read" can be stated. -/
structure streamReader (T : Type) where
  emptyMessagesLimit : Nat
  reader : Option LineReader
  response : Option Response
  errAccumulator : Option Bytes
  unmarshaler : Option (Unmarshaler T)
  httpHeader : httpHeader
  consecutiveEmptyReads : Nat
  closed : Bool
  terminalError : Option GoError
  reads : Nat

/-- The value `new(streamReader[T])`: every field zero. -/
def streamReader.zero (T : Type) : streamReader T :=
  { emptyMessagesLimit := 0
    reader := none
    response := none
    errAccumulator := none
    unmarshaler := none
    httpHeader := []
    consecutiveEmptyReads := 0
    closed := false
    terminalError := none
    reads := 0 }

/-- The call `utils.NewErrorAccumulator()`: an empty buffer. -/
def NewErrorAccumulator : Bytes := []

/-- The four `req.Header.Set` calls that open `sendRequestStream`. -/
def setStreamHeaders (req : Request) : Request :=
  let h1 := req.Header.Set "Content-Type" "application/json"
  let h2 := h1.Set "Accept" "text/event-stream"
  let h3 := h2.Set "Cache-Control" "no-cache"
  let h4 := h3.Set "Connection" "keep-alive"
  { req with Header := h4 }

/-- The function `sendRequestStream` of `client.go`.  `json` is the JSON
codec: the `utils.JSONUnmarshaler` stored in the session, and `json.Unmarshal`
inside `handleErrorResp`. -/
def sendRequestStream {T : Type} (json : Unmarshaler T)
    (client : Client) (req : Request) : streamReader T × Option GoError :=
  match client.config.HTTPClient (setStreamHeaders req) with
  | .error err => (streamReader.zero T, some (.transport err))
  | .ok resp =>
    if isFailureStatusCode resp then
      (streamReader.zero T, handleErrorResp json.errorResponse client resp)
    else
      ({ emptyMessagesLimit := client.config.EmptyMessagesLimit
         reader := some (NewReader resp.Body)
         response := some resp
         errAccumulator := some NewErrorAccumulator
         unmarshaler := some json
         httpHeader := resp.Header
         consecutiveEmptyReads := 0
         closed := false
         terminalError := none
         reads := 0 }, none)

/-- Whitespace, as trimmed from a payload. -/
def isSpace (c : Char) : Bool :=
  c = ' ' || c = '\t' || c = '\n' || c = '\r' || c = '\x0b' || c = '\x0c'

/-- Trim surrounding whitespace. -/
def trimSpace (b : Bytes) : Bytes :=
  ((b.dropWhile isSpace).reverse.dropWhile isSpace).reverse

/-- The data marker that prefixes a frame. -/
def headerData : Bytes := ['d', 'a', 't', 'a', ':']

/-- The stream-termination sentinel token. -/
def doneSentinel : Bytes := ['[', 'D', 'O', 'N', 'E', ']']

/-- The classifications of one raw line by the Event Decoder. -/
inductive LineClass (T : Type) where
  | skip
  | complete
  | event (v : T)
  | decodeError (e : JSONError)
  | notData

/-- Modelled from the spec: the Event Decoder (file `stream_reader.go`) is
missing.  A blank line is skipped; a line prefixed with the data marker has
the marker stripped and the rest trimmed, and is the sentinel, a decoded
event or a decode error; any other non-blank line is not a data line. -/
def classify {T : Type} (decode : Bytes → Except JSONError T) (line : Bytes) : LineClass T :=
  if line.all isSpace then .skip
  else if headerData.isPrefixOf line then
    let payload := trimSpace (line.drop headerData.length)
    if payload = doneSentinel then .complete
    else
      match decode payload with
      | .ok v => .event v
      | .error e => .decodeError e
  else .notData

/-- Modelled from the spec: the Error Accumulator's `unmarshal` and its
caller's fallback (file `stream_reader.go`) are missing.  The buffered bytes
are decoded as an error envelope into the structured error, with the HTTP
status; when they cannot be parsed, the generic error carries the raw bytes
and the HTTP status. -/
def resolveAccumulated (jsonUnmarshal : ErrorUnmarshaler) (resp : Response) (buf : Bytes) :
    GoError :=
  let errRes := jsonUnmarshal buf
  match errRes.err, errRes.Error with
  | none, some apiErr =>
    .api { apiErr with HTTPStatus := resp.Status, HTTPStatusCode := resp.StatusCode }
  | err, _ =>
    .request
      { HTTPStatus := resp.Status
        HTTPStatusCode := resp.StatusCode
        Err := err.map ErrCause.json
        Body := buf }

/-- What one run of the reading loop leaves behind. -/
structure Outcome (T : Type) where
  result : Except GoError T
  lines : List Bytes
  acc : Bytes
  count : Nat
  reads : Nat

/-- Modelled from the spec: the reading loop of the Stream Session (file
`stream_reader.go`) is missing.  Arguments: the lines the Line Reader has
left, the Error Accumulator's buffer, `consecutiveEmptyReads`, and the count
of reads made so far.

A skipped line that is genuinely empty increments `consecutiveEmptyReads`,
and a count that exceeds the limit is the stall error; a line that is not a
data line goes to the accumulator and is not counted; the sentinel is the
end-of-stream signal; an event resets `consecutiveEmptyReads`; a decode error
is returned.  A failure of the transport is propagated verbatim.

At end-of-stream from the Line Reader the server-reported error is resolved
through the accumulator when one was detected, "via non-data-prefixed body
content or failure-range HTTP status" (the accumulator holds bytes, or the
status is a failure); otherwise the end-of-stream signal is surfaced. -/
def processLines {T : Type} (json : Unmarshaler T) (limit : Nat) (resp : Response)
    (ioErr : Option IOError) : List Bytes → Bytes → Nat → Nat → Outcome T
  | [], acc, count, reads =>
    match ioErr with
    | some e => ⟨.error (.transport e), [], acc, count, reads + 1⟩
    | none =>
      if isFailureStatusCode resp || !acc.isEmpty then
        ⟨.error (resolveAccumulated json.errorResponse resp acc), [], acc, count, reads + 1⟩
      else
        ⟨.error .eof, [], acc, count, reads + 1⟩
  | line :: rest, acc, count, reads =>
    match classify json.payload line with
    | .skip =>
      if line.isEmpty then
        if count + 1 > limit then
          ⟨.error .tooManyEmptyStreamMessages, rest, acc, count + 1, reads + 1⟩
        else
          processLines json limit resp ioErr rest acc (count + 1) (reads + 1)
      else
        processLines json limit resp ioErr rest acc count (reads + 1)
    | .notData => processLines json limit resp ioErr rest (acc ++ line) count (reads + 1)
    | .complete => ⟨.error .eof, rest, acc, count, reads + 1⟩
    | .event v => ⟨.ok v, rest, acc, 0, reads + 1⟩
    | .decodeError e => ⟨.error (.unmarshal e), rest, acc, count, reads + 1⟩

/-- The terminal condition a result stores in the session, if any. -/
def terminalOf {T : Type} : Except GoError T → Option GoError
  | .error e => some e
  | .ok _ => none

/-- Modelled from the spec: the method `Recv` of the Stream Session (file
`stream_reader.go`) is missing.  A sealed session returns its stored terminal
condition without touching the transport; otherwise the reading loop runs and
a terminal signal seals the session.  The result is `none` for a reader with
a nil field (the zero value returned next to an error), where Go would
dereference nil. -/
def Recv {T : Type} (s : streamReader T) : Option (Except GoError T × streamReader T) :=
  match s.terminalError with
  | some e => some (.error e, s)
  | none =>
    match s.reader, s.response, s.errAccumulator, s.unmarshaler with
    | some rd, some resp, some acc, some json =>
      let o := processLines json s.emptyMessagesLimit resp rd.err rd.lines acc
        s.consecutiveEmptyReads s.reads
      some (o.result,
        { s with
          reader := some { rd with lines := o.lines }
          errAccumulator := some o.acc
          consecutiveEmptyReads := o.count
          reads := o.reads
          terminalError := terminalOf o.result })
    | _, _, _, _ => none

/-- The results of `n` successive receive calls, and the session after them. -/
def recvN {T : Type} : Nat → streamReader T → Option (List (Except GoError T) × streamReader T)
  | 0, s => some ([], s)
  | n + 1, s =>
    match Recv s with
    | none => none
    | some (r, s1) =>
      match recvN n s1 with
      | none => none
      | some (rs, s2) => some (r :: rs, s2)

/-- A line with its newline delimiter, as it stands on the wire. -/
def wireLine (l : Bytes) : Bytes := l ++ ['\n']

/-- The wire form of a sequence of lines. -/
def unlines : List Bytes → Bytes
  | [] => []
  | l :: ls => wireLine l ++ unlines ls

/-- A data line, `data: ` followed by a payload. -/
def dataLine (payload : Bytes) : Bytes := headerData ++ ' ' :: payload

/-- A frame of a well-formed stream: its payload, the event the payload
decodes to, and the number of blank separator lines that follow it. -/
structure Frame (T : Type) where
  payload : Bytes
  value : T
  blanks : Nat

/-- The lines of a frame: the data line and its blank separators. -/
def Frame.lines {T : Type} (f : Frame T) : List Bytes :=
  dataLine f.payload :: List.replicate f.blanks []

/-- The lines of a sequence of frames. -/
def frameLines {T : Type} : List (Frame T) → List Bytes
  | [] => []
  | f :: fs => f.lines ++ frameLines fs

/-- A frame is well formed for a codec when its payload lies on one line,
is not the sentinel, and decodes to the frame's event. -/
def Frame.WellFormed {T : Type} (json : Unmarshaler T) (f : Frame T) : Prop :=
  '\n' ∉ f.payload ∧ trimSpace f.payload ≠ doneSentinel ∧
    json.payload (trimSpace f.payload) = .ok f.value

/-- The bytes a sequence of lines leaves in the Error Accumulator. -/
def concatLines : List Bytes → Bytes
  | [] => []
  | l :: ls => l ++ concatLines ls

/-- The stream of the spec's example: two frames and the sentinel, each
followed by a blank line. -/
def exStream : String :=
  "data: \x7b\"id\":\"a\"\x7d\n\ndata: \x7b\"id\":\"b\"\x7d\n\ndata: [DONE]\n\n"

/-- The lines of a stream with the blank lines removed. -/
def dropBlank (ls : List Bytes) : List Bytes :=
  ls.filter (fun l => !l.all isSpace)

/-- No run of consecutive blank lines, counted from `c` blank lines already
seen, is longer than `limit`. -/
def blankRunsWithin (limit : Nat) : Nat → List Bytes → Bool
  | _, [] => true
  | c, l :: ls =>
    if l.all isSpace then decide (c + 1 ≤ limit) && blankRunsWithin limit (c + 1) ls
    else blankRunsWithin limit 0 ls

/-- The stream of the spec's example without its blank lines. -/
def exStreamNoBlank : String :=
  "data: \x7b\"id\":\"a\"\x7d\ndata: \x7b\"id\":\"b\"\x7d\ndata: [DONE]\n"

/-- The lines of the stream of the spec's example. -/
def exStreamLines : List Bytes :=
  ["data: \x7b\"id\":\"a\"\x7d".toList, [], "data: \x7b\"id\":\"b\"\x7d".toList, [],
    "data: [DONE]".toList, []]

/-- A session in the reading state: not sealed, with every field of the
struct literal present. -/
def OpenAt {T : Type} (s : streamReader T) (json : Unmarshaler T) (resp : Response)
    (ioErr : Option IOError) (lines : List Bytes) (acc : Bytes) (count : Nat) : Prop :=
  s.terminalError = none ∧ s.reader = some ⟨lines, ioErr⟩ ∧ s.response = some resp ∧
    s.errAccumulator = some acc ∧ s.unmarshaler = some json ∧
    s.consecutiveEmptyReads = count

/-! ## Configuration and request construction -/

/-- The constant `giteeaiAPIURLv1` of `config.go`. -/
def giteeaiAPIURLv1 : String := "https://ai.gitee.com/v1"

/-- The constant `defaultEmptyMessagesLimit` of `config.go`. -/
def defaultEmptyMessagesLimit : Nat := 300

/-- The constant `defaultAssistantVersion` of `config.go`. -/
def defaultAssistantVersion : String := "v2"

/-- The function `DefaultConfig` of `config.go`.  `netHTTP` stands for the
`&http.Client{}` of the standard library, the transport it installs. -/
def DefaultConfig (netHTTP : HTTPDoer) (authToken : String) : ClientConfig :=
  { authToken := authToken
    BaseURL := giteeaiAPIURLv1
    AssistantVersion := defaultAssistantVersion
    HTTPClient := netHTTP
    EmptyMessagesLimit := defaultEmptyMessagesLimit }

/-- The method `ClientConfig.String` of `config.go`. -/
def ClientConfig.String (_c : ClientConfig) : String :=
  "<GiteeAI API ClientConfig>"

/-- The function `NewClientWithConfig` of `client.go`. -/
def NewClientWithConfig (config : ClientConfig) : Client :=
  { config := config }

/-- The function `NewClient` of `client.go`. -/
def NewClient (netHTTP : HTTPDoer) (authToken : String) : Client :=
  NewClientWithConfig (DefaultConfig netHTTP authToken)

/-- The struct `fullURLOptions` of `client.go`. -/
structure fullURLOptions where
  model : String
deriving DecidableEq

/-- The type `fullURLOption` of `client.go`, a setter of `fullURLOptions`. -/
abbrev fullURLOption := fullURLOptions → fullURLOptions

/-- The function `withModel` of `client.go`. -/
def withModel (model : String) : fullURLOption :=
  fun args => { args with model := model }

/-- The method `Client.fullURL` of `client.go`: `fmt.Sprintf("%s%s", baseURL, suffix)`;
the setters are received and not applied. -/
def Client.fullURL (c : Client) (suffix : String) (_setters : List fullURLOption) : String :=
  let baseURL := c.config.BaseURL
  baseURL ++ suffix

/-! ## Prompts, wrapped readers and closing -/

/-- A value of type `any`, by the dynamic types `checkPromptType` tells apart:
the nil interface, a `string`, a `[]string`, a `[]any`, and any other type. -/
inductive AnyValue where
  | nil
  | string (s : String)
  | stringSlice (xs : List String)
  | anySlice (xs : List AnyValue)
  | other (typeName : String)

/-- The type assertion `item.(string)`, by its `ok` result. -/
def AnyValue.isString : AnyValue → Bool
  | .string _ => true
  | _ => false

/-- The type assertion `prompt.([]string)`, by its `ok` result. -/
def AnyValue.isStringSlice : AnyValue → Bool
  | .stringSlice _ => true
  | _ => false

/-- The `for` loop of `checkPromptType`: false at the first item that is not a
string, true when the slice is exhausted. -/
def itemsAreStrings : List AnyValue → Bool
  | [] => true
  | item :: rest => if !item.isString then false else itemsAreStrings rest

/-- The function `checkPromptType` of `completion.go`. -/
def checkPromptType (prompt : AnyValue) : Bool :=
  let isString := prompt.isString
  let isStringSlice := prompt.isStringSlice
  if isString || isStringSlice then true
  else
    match prompt with
    | .anySlice slice => itemsAreStrings slice
    | _ => false

/-- The function `checkEndpointSupportsModel` of `completion.go`. -/
def checkEndpointSupportsModel (_endpoint _model : String) : Bool := true

/-- A non-nil `io.Reader` value: what it yields, and the result of its
`Name()` method when its dynamic type has one. -/
structure Reader where
  content : BodyReader
  Name : Option String
deriving DecidableEq

/-- The type assertion `rdr.(interface{ Name() string })` followed by the call
of `Name()`: `none` when the assertion fails, as it does on a nil reader. -/
def namedName (rdr : Option Reader) : Option String :=
  match rdr with
  | some r => r.Name
  | none => none

/-- The struct `file` of `image.go`; `Reader = none` is a nil `io.Reader`. -/
structure file where
  Reader : Option Reader
  name : String
  contentType : String
deriving DecidableEq

/-- The function `WrapReader` of `image.go`. -/
def WrapReader (rdr : Option Reader) (filename : String) (contentType : String) : file :=
  { Reader := rdr, name := filename, contentType := contentType }

/-- The method `file.Name` of `image.go`. -/
def file.Name (f : file) : String :=
  if f.name ≠ "" then f.name
  else
    match namedName f.Reader with
    | some named => named
    | none => ""

/-- The method `file.ContentType` of `image.go`. -/
def file.ContentType (f : file) : String := f.contentType

/-- Modelled from the spec: the method `Close` of the Stream Session (file
`stream_reader.go`) is missing.  It releases the underlying transport, which
the session records in `closed`, and is safe to call multiple times: on a
closed session it does nothing.  The first component is the returned error. -/
def Close {T : Type} (s : streamReader T) : Option GoError × streamReader T :=
  if s.closed then (none, s) else (none, { s with closed := true })

/-! ## Building and sending a request -/

/-- The method `http.Header.Get`: the first value under `key`, or the empty
string (the keys read in this file are already canonical). -/
def Header.Get (h : Header) (key : String) : String :=
  match h.lookup key with
  | some (v :: _) => v
  | _ => ""

/-- The struct `requestOptions` of `client.go`; `B` is the dynamic type of the
body, `none` a nil body. -/
structure requestOptions (B : Type) where
  body : Option B
  header : Header

/-- The type `requestOption` of `client.go`, a setter of `requestOptions`. -/
abbrev requestOption (B : Type) := requestOptions B → requestOptions B

/-- The function `withBody` of `client.go`. -/
def withBody {B : Type} (body : B) : requestOption B :=
  fun args => { args with body := some body }

/-- The function `withContentType` of `client.go`. -/
def withContentType {B : Type} (contentType : String) : requestOption B :=
  fun args => { args with header := args.header.Set "Content-Type" contentType }

/-- The function `withBetaAssistantVersion` of `client.go`.  The source passes
the key `OpenAI-Beta`, which `http.Header.Set` canonicalises: the value is
stored under `Openai-Beta`. -/
def withBetaAssistantVersion {B : Type} (version : String) : requestOption B :=
  fun args => { args with header := args.header.Set "Openai-Beta" ("assistants=" ++ version) }

/-- The method `Build` of `utils.RequestBuilder`, whose package is not among
the sources: from method, URL, body and header to a request or an error.  The
context travels with the builder. -/
abbrev RequestBuilder (B : Type) :=
  String → String → Option B → Header → Except GoError Request

/-- The method `Client.setCommonHeaders` of `client.go`. -/
def Client.setCommonHeaders (c : Client) (req : Request) : Request :=
  if c.config.authToken ≠ "" then
    { req with Header := req.Header.Set "Authorization" ("Bearer " ++ c.config.authToken) }
  else req

/-- The options `newRequest` hands to the builder: the default options with
every setter applied in order. -/
def applySetters {B : Type} (setters : List (requestOption B)) : requestOptions B :=
  setters.foldl (fun args setter => setter args) { body := none, header := [] }

/-- The method `Client.newRequest` of `client.go`; `build` is
`c.requestBuilder.Build`. -/
def Client.newRequest {B : Type} (build : RequestBuilder B) (c : Client)
    (method url : String) (setters : List (requestOption B)) : Except GoError Request :=
  let args := applySetters setters
  match build method url args.body args.header with
  | .error err => .error err
  | .ok req => .ok (c.setCommonHeaders req)

/-- The JSON decoder applied to a response target of type `R`: from the body
and the target as it stands to the target as the decoder leaves it, and the
decoder's error. -/
abbrev Decoder (R : Type) := BodyReader → R → R × Option GoError

/-- The function `decodeResponse` of `client.go`, for a target that is neither
a `*string` nor an `*audioTextResponse`: nothing for a nil target, the JSON
decoder otherwise. -/
def decodeResponse {R : Type} (decode : Decoder R) (body : BodyReader) (v : Option R) :
    Option R × Option GoError :=
  match v with
  | none => (none, none)
  | some r => ((decode body r).1, (decode body r).2)

/-- The header settings that open `sendRequest`: `Accept`, and `Content-Type`
when none is set. -/
def setJSONHeaders (req : Request) : Request :=
  let h1 := req.Header.Set "Accept" "application/json"
  let contentType := h1.Get "Content-Type"
  if contentType = "" then { req with Header := h1.Set "Content-Type" "application/json" }
  else { req with Header := h1 }

/-- The method `Client.sendRequest` of `client.go`: the target as the call
leaves it, and the returned error.  `setHeader` is the target's `SetHeader`. -/
def Client.sendRequest {R : Type} (decode : Decoder R) (setHeader : R → Header → R)
    (jsonUnmarshal : ErrorUnmarshaler) (c : Client) (req : Request) (v : Option R) :
    Option R × Option GoError :=
  match c.config.HTTPClient (setJSONHeaders req) with
  | .error err => (v, some (.transport err))
  | .ok res =>
    let v1 := v.map (fun r => setHeader r res.Header)
    if isFailureStatusCode res then (v1, handleErrorResp jsonUnmarshal c res)
    else decodeResponse decode res.Body v1

/-- The struct `CompletionRequest` of `completion.go`, without its `float32`
sampling parameters, its maps and its `StreamOptions`, which only travel to
the request body. -/
structure CompletionRequest where
  Model : String
  Prompt : AnyValue
  BestOf : Int
  Echo : Bool
  Store : Bool
  LogProbs : Int
  MaxTokens : Int
  N : Int
  Seed : Option Int
  Stop : List String
  Stream : Bool
  Suffix : String
  User : String

/-- The struct `CompletionResponse` of `completion.go`.  The element type `C`
of `Choices`, which holds `float32` log-probabilities, and the type `U` of
`Usage`, declared outside the sources, are parameters. -/
structure CompletionResponse (C U : Type) where
  ID : String
  Object : String
  Created : Int
  Model : String
  Choices : List C
  Usage : Option U
  httpHeader : httpHeader

/-- The zero value of `CompletionResponse`. -/
def CompletionResponse.zero (C U : Type) : CompletionResponse C U :=
  { ID := "", Object := "", Created := 0, Model := "", Choices := [], Usage := none,
    httpHeader := [] }

/-- The method `SetHeader` that `CompletionResponse` takes from `httpHeader`. -/
def CompletionResponse.SetHeader {C U : Type} (r : CompletionResponse C U) (header : Header) :
    CompletionResponse C U :=
  { r with httpHeader := header }

/-- The error variable `ErrCompletionStreamNotSupported`. -/
def ErrCompletionStreamNotSupported : GoError := .named "ErrCompletionStreamNotSupported"

/-- The error variable `ErrCompletionUnsupportedModel`. -/
def ErrCompletionUnsupportedModel : GoError := .named "ErrCompletionUnsupportedModel"

/-- The error variable `ErrCompletionRequestPromptTypeNotSupported`. -/
def ErrCompletionRequestPromptTypeNotSupported : GoError :=
  .named "ErrCompletionRequestPromptTypeNotSupported"

/-- A call that leaves the client: building a request, or sending one. -/
inductive Call where
  | build (method url : String)
  | send (req : Request)
deriving DecidableEq

/-- What `CreateCompletion` returns, and the calls it made to the request
builder and to the transport, in order. -/
structure CompletionResult (C U : Type) where
  response : CompletionResponse C U
  err : Option GoError
  calls : List Call

/-- The method `Client.CreateCompletion` of `completion.go`. -/
def Client.CreateCompletion {C U : Type} (build : RequestBuilder CompletionRequest)
    (decode : Decoder (CompletionResponse C U)) (jsonUnmarshal : ErrorUnmarshaler)
    (c : Client) (request : CompletionRequest) : CompletionResult C U :=
  if request.Stream then
    ⟨CompletionResponse.zero C U, some ErrCompletionStreamNotSupported, []⟩
  else
    let urlSuffix := "/completions"
    if !checkEndpointSupportsModel urlSuffix request.Model then
      ⟨CompletionResponse.zero C U, some ErrCompletionUnsupportedModel, []⟩
    else if !checkPromptType request.Prompt then
      ⟨CompletionResponse.zero C U, some ErrCompletionRequestPromptTypeNotSupported, []⟩
    else
      let url := c.fullURL urlSuffix [withModel request.Model]
      match c.newRequest build "POST" url [withBody request] with
      | .error err => ⟨CompletionResponse.zero C U, some err, [.build "POST" url]⟩
      | .ok req =>
        let sent := c.sendRequest decode CompletionResponse.SetHeader jsonUnmarshal req
          (some (CompletionResponse.zero C U))
        ⟨sent.1.getD (CompletionResponse.zero C U), sent.2,
          [.build "POST" url, .send (setJSONHeaders req)]⟩

/-- A request of the examples for a completion. -/
def exCompletionRequest (prompt : AnyValue) (stream : Bool) : CompletionRequest :=
  { Model := "qwen2-7b-instruct", Prompt := prompt, BestOf := 0, Echo := false, Store := false,
    LogProbs := 0, MaxTokens := 5, N := 0, Seed := none, Stop := [], Stream := stream,
    Suffix := "", User := "" }

/-- A request builder of the examples: it takes over the header it is given
and leaves the body empty. -/
def exBuild {B : Type} : RequestBuilder B :=
  fun method url _ header => .ok ⟨method, url, header, []⟩

/-- A setter of the examples that writes an `Authorization` header. -/
def exWithAuthorization {B : Type} (value : String) : requestOption B :=
  fun args => { args with header := args.header.Set "Authorization" value }

/-- A decoder of the examples, which fails on every body. -/
def exDecode : Decoder (CompletionResponse Unit Unit) :=
  fun _ r => (r, some (.unmarshal ⟨"invalid character"⟩))

/-! ## Fixtures for the worked examples -/

/-- A payload codec for the examples: it decodes the two payloads of the
spec's example stream and rejects everything else. -/
def exPayload (b : Bytes) : Except JSONError String :=
  if b = "\x7b\"id\":\"a\"\x7d".toList then .ok "a"
  else if b = "\x7b\"id\":\"b\"\x7d".toList then .ok "b"
  else .error ⟨"invalid character"⟩

/-- An error-envelope codec for the examples: one body with an `error`
object, the body `{}` without one, and everything else a syntax error. -/
def exErrorResponse (b : Bytes) : UnmarshalResult :=
  if b = "\x7b\"error\":\x7b\"message\":\"bad key\",\"type\":\"auth\",\"code\":\"invalid_api_key\"\x7d\x7d".toList then
    ⟨none, some ⟨.str "invalid_api_key", "bad key", "auth", "", 0⟩⟩
  else if b = "\x7b\x7d".toList then ⟨none, none⟩
  else ⟨some ⟨"invalid character"⟩, none⟩

/-- The codec of the examples. -/
def exJSON : Unmarshaler String := ⟨exPayload, exErrorResponse⟩

/-- A response of the examples, by status and body. -/
def exResp (status : String) (code : Int) (body : String) : Response :=
  ⟨status, code, [("Content-Type", ["text/event-stream"])], ⟨body.toList, none⟩⟩

/-- A client of the examples whose transport answers every request with
`resp`, and whose empty-message limit is `limit`. -/
def exClient (limit : Nat) (resp : Response) : Client :=
  ⟨⟨"token", "https://ai.gitee.com/v1", "v2", fun _ => .ok resp, limit⟩⟩

/-- A request of the examples. -/
def exReq : Request := ⟨"POST", "https://ai.gitee.com/v1/completions", [], []⟩

/-- The session `sendRequestStream` opens in the examples on a response with
status 200 and the given body. -/
def exSession (limit : Nat) (body : String) : streamReader String :=
  (sendRequestStream exJSON (exClient limit (exResp "200 OK" 200 body)) exReq).1

/-- The session a receive call leaves behind (the session itself where the
call has no result). -/
def afterRecv {T : Type} (s : streamReader T) : streamReader T :=
  match Recv s with
  | some (_, s1) => s1
  | none => s

/-- The error body of the examples. -/
def exErrorBody : String :=
  "\x7b\"error\":\x7b\"message\":\"bad key\",\"type\":\"auth\",\"code\":\"invalid_api_key\"\x7d\x7d"

/-! ## Error multiplexing: `handleErrorResp` -/

/-- Every path of `handleErrorResp` returns a non-nil error. -/
theorem handleErrorResp_ne_none (jsonUnmarshal : ErrorUnmarshaler) (c : Client)
    (resp : Response) : handleErrorResp jsonUnmarshal c resp ≠ none := by
  unfold handleErrorResp ReadAll
  cases hb : resp.Body.err with
  | some e => simp
  | none =>
    cases he : (jsonUnmarshal resp.Body.data).err <;>
      cases hE : (jsonUnmarshal resp.Body.data).Error <;> simp [he, hE]

/-- C2: when the body is read and decodes without error as an envelope with an
`error` object, `handleErrorResp` returns that `APIError` with `HTTPStatus`
and `HTTPStatusCode` taken from the response, and message, type and code as
decoded. -/
theorem handleErrorResp_apiError (jsonUnmarshal : ErrorUnmarshaler) (c : Client)
    (resp : Response) (apiErr : APIError)
    (hread : resp.Body.err = none)
    (hdec : jsonUnmarshal resp.Body.data = ⟨none, some apiErr⟩) :
    ∃ e : APIError, handleErrorResp jsonUnmarshal c resp = some (.api e) ∧
      e.HTTPStatus = resp.Status ∧ e.HTTPStatusCode = resp.StatusCode ∧
      e.Message = apiErr.Message ∧ e.Type_ = apiErr.Type_ ∧ e.Code = apiErr.Code := by
  refine ⟨{ apiErr with HTTPStatus := resp.Status, HTTPStatusCode := resp.StatusCode },
    ?_, rfl, rfl, rfl, rfl, rfl⟩
  simp [handleErrorResp, ReadAll, hread, hdec]

/-- C2, at the unauthorized response of the examples. -/
theorem handleErrorResp_apiError_witness :
    ∃ e : APIError,
      handleErrorResp exErrorResponse (exClient 300 (exResp "401 Unauthorized" 401 exErrorBody))
        (exResp "401 Unauthorized" 401 exErrorBody) = some (.api e) ∧
      e.HTTPStatus = "401 Unauthorized" ∧ e.HTTPStatusCode = 401 ∧
      e.Message = "bad key" ∧ e.Type_ = "auth" ∧ e.Code = .str "invalid_api_key" :=
  handleErrorResp_apiError exErrorResponse _ (exResp "401 Unauthorized" 401 exErrorBody)
    ⟨.str "invalid_api_key", "bad key", "auth", "", 0⟩ rfl (by rfl)

/-- C3: when the body is read but fails to decode, or decodes to an envelope
without an `error` object, `handleErrorResp` returns a `RequestError` (never
nil) whose `Body` is the bytes read and whose status code and status text are
the response's. -/
theorem handleErrorResp_requestError (jsonUnmarshal : ErrorUnmarshaler) (c : Client)
    (resp : Response)
    (hread : resp.Body.err = none)
    (hdec : (jsonUnmarshal resp.Body.data).err ≠ none ∨
      (jsonUnmarshal resp.Body.data).Error = none) :
    ∃ r : RequestError, handleErrorResp jsonUnmarshal c resp = some (.request r) ∧
      r.Body = resp.Body.data ∧ r.HTTPStatusCode = resp.StatusCode ∧
      r.HTTPStatus = resp.Status := by
  unfold handleErrorResp ReadAll
  cases he : (jsonUnmarshal resp.Body.data).err <;>
    cases hE : (jsonUnmarshal resp.Body.data).Error <;>
    simp_all

/-- C3, at a gateway's plain-text body, which is not JSON. -/
theorem handleErrorResp_requestError_witness :
    ∃ r : RequestError,
      handleErrorResp exErrorResponse (exClient 300 (exResp "502 Bad Gateway" 502 "upstream down"))
        (exResp "502 Bad Gateway" 502 "upstream down") = some (.request r) ∧
      r.Body = "upstream down".toList ∧ r.HTTPStatusCode = 502 ∧
      r.HTTPStatus = "502 Bad Gateway" :=
  handleErrorResp_requestError exErrorResponse _ (exResp "502 Bad Gateway" 502 "upstream down")
    rfl (Or.inl (by decide))

/-! ## Opening a stream: `sendRequestStream` -/

/-- The failure range of `isFailureStatusCode`, in terms of the status code. -/
theorem isFailureStatusCode_iff (resp : Response) :
    isFailureStatusCode resp = true ↔ resp.StatusCode < 200 ∨ resp.StatusCode ≥ 400 := by
  simp [isFailureStatusCode, StatusOK, StatusBadRequest]

/-- What `sendRequestStream` returns for a response outside the failure range. -/
theorem sendRequestStream_ok {T : Type} (json : Unmarshaler T) (client : Client)
    (req : Request) (resp : Response)
    (hdo : client.config.HTTPClient (setStreamHeaders req) = .ok resp)
    (hok : isFailureStatusCode resp = false) :
    sendRequestStream json client req =
      ({ emptyMessagesLimit := client.config.EmptyMessagesLimit
         reader := some (NewReader resp.Body)
         response := some resp
         errAccumulator := some NewErrorAccumulator
         unmarshaler := some json
         httpHeader := resp.Header
         consecutiveEmptyReads := 0
         closed := false
         terminalError := none
         reads := 0 }, none) := by
  simp [sendRequestStream, hdo, hok]

/-- C7: for a response with a status code in the failure range,
`sendRequestStream` returns the zero stream reader (no body reader, no
response) and the error of `handleErrorResp`, which is not nil; and a session
returned with a nil error wraps a response with status code in [200, 400). -/
theorem sendRequestStream_failure {T : Type} (json : Unmarshaler T) (client : Client)
    (req : Request) :
    (∀ resp : Response, client.config.HTTPClient (setStreamHeaders req) = .ok resp →
      (resp.StatusCode < 200 ∨ resp.StatusCode ≥ 400) →
      sendRequestStream json client req =
        (streamReader.zero T, handleErrorResp json.errorResponse client resp) ∧
      (sendRequestStream json client req).2 ≠ none ∧
      (sendRequestStream json client req).1.reader = none ∧
      (sendRequestStream json client req).1.response = none) ∧
    ((sendRequestStream json client req).2 = none →
      ∃ resp : Response, (sendRequestStream json client req).1.response = some resp ∧
        200 ≤ resp.StatusCode ∧ resp.StatusCode < 400) := by
  constructor
  · intro resp hdo hfail
    have hf : isFailureStatusCode resp = true := (isFailureStatusCode_iff resp).2 hfail
    have heq : sendRequestStream json client req =
        (streamReader.zero T, handleErrorResp json.errorResponse client resp) := by
      simp [sendRequestStream, hdo, hf]
    refine ⟨heq, ?_, ?_, ?_⟩
    · rw [heq]
      exact handleErrorResp_ne_none json.errorResponse client resp
    · rw [heq]
      rfl
    · rw [heq]
      rfl
  · intro hnil
    cases hdo : client.config.HTTPClient (setStreamHeaders req) with
    | error err => simp [sendRequestStream, hdo] at hnil
    | ok resp =>
      cases hf : isFailureStatusCode resp with
      | true =>
        have hne := handleErrorResp_ne_none json.errorResponse client resp
        simp [sendRequestStream, hdo, hf] at hnil
        exact absurd hnil hne
      | false =>
        refine ⟨resp, ?_, ?_, ?_⟩
        · rw [sendRequestStream_ok json client req resp hdo hf]
        · by_contra hlt
          have : isFailureStatusCode resp = true :=
            (isFailureStatusCode_iff resp).2 (Or.inl (by omega))
          simp [hf] at this
        · by_contra hge
          have : isFailureStatusCode resp = true :=
            (isFailureStatusCode_iff resp).2 (Or.inr (by omega))
          simp [hf] at this

/-- C7, at an unauthorized response and at a response with status 200. -/
theorem sendRequestStream_failure_witness :
    ((sendRequestStream exJSON (exClient 300 (exResp "401 Unauthorized" 401 exErrorBody)) exReq).2
        ≠ none ∧
      (sendRequestStream exJSON (exClient 300 (exResp "401 Unauthorized" 401 exErrorBody))
        exReq).1.reader = none) ∧
    ∃ resp : Response,
      (sendRequestStream exJSON (exClient 300 (exResp "200 OK" 200 "data: [DONE]\n"))
        exReq).1.response = some resp ∧ 200 ≤ resp.StatusCode ∧ resp.StatusCode < 400 :=
  ⟨⟨((sendRequestStream_failure exJSON
      (exClient 300 (exResp "401 Unauthorized" 401 exErrorBody)) exReq).1
      (exResp "401 Unauthorized" 401 exErrorBody) rfl (Or.inr (by decide))).2.1,
    ((sendRequestStream_failure exJSON
      (exClient 300 (exResp "401 Unauthorized" 401 exErrorBody)) exReq).1
      (exResp "401 Unauthorized" 401 exErrorBody) rfl (Or.inr (by decide))).2.2.1⟩,
   (sendRequestStream_failure exJSON (exClient 300 (exResp "200 OK" 200 "data: [DONE]\n"))
      exReq).2 (by rfl)⟩

/-- C10: the headers exposed by a session that `sendRequestStream` returned
with a nil error are the headers of the response received at open. -/
theorem sendRequestStream_header {T : Type} (json : Unmarshaler T) (client : Client)
    (req : Request) (resp : Response)
    (hdo : client.config.HTTPClient (setStreamHeaders req) = .ok resp)
    (hnil : (sendRequestStream json client req).2 = none) :
    (sendRequestStream json client req).1.httpHeader.Header = resp.Header := by
  cases hf : isFailureStatusCode resp with
  | true =>
    have hne := handleErrorResp_ne_none json.errorResponse client resp
    simp [sendRequestStream, hdo, hf] at hnil
    exact absurd hnil hne
  | false =>
    rw [sendRequestStream_ok json client req resp hdo hf]
    rfl

/-- C10, at a response with status 200 and an event-stream content type. -/
theorem sendRequestStream_header_witness :
    (sendRequestStream exJSON (exClient 300 (exResp "200 OK" 200 "data: [DONE]\n"))
      exReq).1.httpHeader.Header = [("Content-Type", ["text/event-stream"])] :=
  sendRequestStream_header exJSON (exClient 300 (exResp "200 OK" 200 "data: [DONE]\n")) exReq
    (exResp "200 OK" 200 "data: [DONE]\n") rfl (by rfl)

/-! ## The stream session: basic facts -/

theorem splitLines_wireLine (l rest : Bytes) (hl : '\n' ∉ l) :
    splitLines (wireLine l ++ rest) = l :: splitLines rest := by
  induction l with
  | nil => simp [wireLine, splitLines]
  | cons c cs ih =>
    have hc : c ≠ '\n' := fun h => hl (by simp [h])
    have hcs : '\n' ∉ cs := fun h => hl (by simp [h])
    have ih1 := ih hcs
    simp only [wireLine, List.cons_append, List.append_assoc, List.nil_append] at ih1 ⊢
    simp [splitLines, hc, ih1]

theorem splitLines_unlines (ls : List Bytes) (rest : Bytes) (h : ∀ l ∈ ls, '\n' ∉ l) :
    splitLines (unlines ls ++ rest) = ls ++ splitLines rest := by
  induction ls with
  | nil => simp [unlines]
  | cons l ls ih =>
    have h1 : '\n' ∉ l := h l (by simp)
    have h2 : ∀ x ∈ ls, '\n' ∉ x := fun x hx => h x (by simp [hx])
    simp only [unlines, List.append_assoc, List.cons_append]
    rw [splitLines_wireLine l _ h1, ih h2]

theorem trimSpace_space_cons (p : Bytes) : trimSpace (' ' :: p) = trimSpace p := by
  simp [trimSpace, List.dropWhile, isSpace]

theorem classify_nil {T : Type} (decode : Bytes → Except JSONError T) :
    classify decode [] = .skip := by
  simp [classify]

theorem classify_headerData {T : Type} (decode : Bytes → Except JSONError T) (p : Bytes) :
    classify decode (headerData ++ p) =
      if trimSpace p = doneSentinel then .complete
      else
        match decode (trimSpace p) with
        | .ok v => .event v
        | .error e => .decodeError e := by
  simp [classify, headerData, isSpace, List.isPrefixOf]

theorem classify_dataLine {T : Type} (decode : Bytes → Except JSONError T) (p : Bytes) :
    classify decode (dataLine p) =
      if trimSpace p = doneSentinel then .complete
      else
        match decode (trimSpace p) with
        | .ok v => .event v
        | .error e => .decodeError e := by
  rw [dataLine, classify_headerData, trimSpace_space_cons]

theorem Recv_sealed {T : Type} (s : streamReader T) (e : GoError)
    (h : s.terminalError = some e) : Recv s = some (.error e, s) := by
  simp [Recv, h]

theorem recvN_sealed {T : Type} (s : streamReader T) (e : GoError)
    (h : s.terminalError = some e) (n : Nat) :
    recvN n s = some (List.replicate n (.error e), s) := by
  induction n with
  | zero => rfl
  | succ n ih => simp [recvN, Recv_sealed s e h, ih, List.replicate_succ]

theorem Recv_open {T : Type} {s : streamReader T} {json : Unmarshaler T} {resp : Response}
    {ioErr : Option IOError} {lines : List Bytes} {acc : Bytes} {count : Nat}
    (h : OpenAt s json resp ioErr lines acc count) :
    Recv s =
      some ((processLines json s.emptyMessagesLimit resp ioErr lines acc count s.reads).result,
        { s with
          reader := some ⟨(processLines json s.emptyMessagesLimit resp ioErr lines acc count
            s.reads).lines, ioErr⟩
          errAccumulator := some (processLines json s.emptyMessagesLimit resp ioErr lines acc
            count s.reads).acc
          consecutiveEmptyReads := (processLines json s.emptyMessagesLimit resp ioErr lines acc
            count s.reads).count
          reads := (processLines json s.emptyMessagesLimit resp ioErr lines acc count
            s.reads).reads
          terminalError := terminalOf (processLines json s.emptyMessagesLimit resp ioErr lines
            acc count s.reads).result }) := by
  obtain ⟨h1, h2, h3, h4, h5, h6⟩ := h
  simp [Recv, h1, h2, h3, h4, h5, h6]

/-- A receive call on an open session that ends in an error seals the session
with that error. -/
theorem Recv_open_error {T : Type} {s : streamReader T} {json : Unmarshaler T}
    {resp : Response} {ioErr : Option IOError} {lines : List Bytes} {acc : Bytes} {count : Nat}
    (h : OpenAt s json resp ioErr lines acc count) (e : GoError)
    (hr : (processLines json s.emptyMessagesLimit resp ioErr lines acc count s.reads).result
      = .error e) :
    ∃ s1, Recv s = some (.error e, s1) ∧ s1.terminalError = some e := by
  have hR := Recv_open h
  rw [hr] at hR
  exact ⟨_, hR, by simp [terminalOf]⟩

/-- A receive call on an open session that ends in an event leaves the session
open, at what the reading loop left behind. -/
theorem Recv_open_ok {T : Type} {s : streamReader T} {json : Unmarshaler T}
    {resp : Response} {ioErr : Option IOError} {lines : List Bytes} {acc : Bytes} {count : Nat}
    (h : OpenAt s json resp ioErr lines acc count) (v : T) (o : Outcome T)
    (ho : processLines json s.emptyMessagesLimit resp ioErr lines acc count s.reads = o)
    (hr : o.result = .ok v) :
    ∃ s1, Recv s = some (.ok v, s1) ∧ OpenAt s1 json resp ioErr o.lines o.acc o.count ∧
      s1.emptyMessagesLimit = s.emptyMessagesLimit ∧ s1.reads = o.reads := by
  have hR := Recv_open h
  rw [ho, hr] at hR
  obtain ⟨_, _, h3, _, h5, _⟩ := h
  exact ⟨_, hR, by simp [OpenAt, terminalOf, h3, h5], rfl, rfl⟩

theorem processLines_ok_count {T : Type} (json : Unmarshaler T) (limit : Nat) (resp : Response)
    (ioErr : Option IOError) (lines : List Bytes) (acc : Bytes) (count reads : Nat) (v : T)
    (h : (processLines json limit resp ioErr lines acc count reads).result = .ok v) :
    (processLines json limit resp ioErr lines acc count reads).count = 0 := by
  induction lines generalizing acc count reads with
  | nil =>
    unfold processLines at h
    cases ioErr <;> simp at h
    split at h <;> simp at h
  | cons line rest ih =>
    unfold processLines at h ⊢
    cases hc : classify json.payload line with
    | skip =>
      simp only [hc] at h ⊢
      by_cases he : line.isEmpty = true
      · simp only [he, if_true] at h ⊢
        by_cases hl : count + 1 > limit
        · simp [hl] at h
        · simp only [hl, if_false] at h ⊢
          exact ih _ _ _ h
      · simp only [he] at h ⊢
        exact ih _ _ _ h
    | notData =>
      simp only [hc] at h ⊢
      exact ih _ _ _ h
    | complete => simp [hc] at h
    | event w => simp [hc]
    | decodeError e => simp [hc] at h

/-- Whenever a receive call returns an event, `consecutiveEmptyReads` is 0 in
the session it leaves. -/
theorem Recv_ok_count {T : Type} (s s1 : streamReader T) (v : T)
    (h : Recv s = some (.ok v, s1)) : s1.consecutiveEmptyReads = 0 := by
  unfold Recv at h
  cases ht : s.terminalError with
  | some e => simp [ht] at h
  | none =>
    cases hrd : s.reader <;> cases hresp : s.response <;> cases hacc : s.errAccumulator <;>
      cases hum : s.unmarshaler <;> simp [ht, hrd, hresp, hacc, hum] at h
    obtain ⟨hres, hs⟩ := h
    rw [← hs]
    exact processLines_ok_count _ _ _ _ _ _ _ _ v hres

/-- Whenever a receive call returns an error, the session it leaves stores
that error as its terminal condition. -/
theorem Recv_error_seals {T : Type} (s s1 : streamReader T) (e : GoError)
    (h : Recv s = some (.error e, s1)) : s1.terminalError = some e := by
  unfold Recv at h
  cases ht : s.terminalError with
  | some e0 =>
    simp [ht] at h
    obtain ⟨he, hs⟩ := h
    rw [← hs, ht, he]
  | none =>
    cases hrd : s.reader <;> cases hresp : s.response <;> cases hacc : s.errAccumulator <;>
      cases hum : s.unmarshaler <;> simp [ht, hrd, hresp, hacc, hum] at h
    obtain ⟨hres, hs⟩ := h
    rw [← hs]
    simp [hres, terminalOf]

/-! ## The stream session: terminal conditions -/

/-- C6: once a receive call has returned a terminal signal `e`, every later
receive call returns `e` again and no event, and leaves the session as it is:
its reader and its count of transport reads do not change. -/
theorem Recv_sealed_invariant {T : Type} (s s1 : streamReader T) (e : GoError)
    (h : Recv s = some (.error e, s1)) :
    Recv s1 = some (.error e, s1) ∧
    ∀ n : Nat, recvN n s1 = some (List.replicate n (.error e), s1) ∧
      ∀ rs s2, recvN n s1 = some (rs, s2) →
        (∀ r ∈ rs, r = .error e) ∧ s2.reads = s1.reads ∧ s2.reader = s1.reader := by
  have hseal := Recv_error_seals s s1 e h
  refine ⟨Recv_sealed s1 e hseal, fun n => ⟨recvN_sealed s1 e hseal n, ?_⟩⟩
  intro rs s2 hrs
  rw [recvN_sealed s1 e hseal n] at hrs
  simp only [Option.some.injEq, Prod.mk.injEq] at hrs
  obtain ⟨h1, h2⟩ := hrs
  subst h1 h2
  exact ⟨fun r hr => (List.mem_replicate.1 hr).2, rfl, rfl⟩

/-- C6, at the stream that holds only the sentinel: after the end-of-stream
signal, two more receive calls return it again and leave the session alone. -/
theorem Recv_sealed_invariant_witness :
    Recv (afterRecv (exSession 300 "data: [DONE]\n")) =
        some (.error .eof, afterRecv (exSession 300 "data: [DONE]\n")) ∧
      recvN 2 (afterRecv (exSession 300 "data: [DONE]\n")) =
        some ([.error .eof, .error .eof], afterRecv (exSession 300 "data: [DONE]\n")) :=
  ⟨(Recv_sealed_invariant (exSession 300 "data: [DONE]\n")
      (afterRecv (exSession 300 "data: [DONE]\n")) .eof (by rfl)).1,
   ((Recv_sealed_invariant (exSession 300 "data: [DONE]\n")
      (afterRecv (exSession 300 "data: [DONE]\n")) .eof (by rfl)).2 2).1⟩

theorem processLines_decodeError {T : Type} (json : Unmarshaler T) (limit : Nat)
    (resp : Response) (ioErr : Option IOError) (p : Bytes) (rest : List Bytes) (acc : Bytes)
    (count reads : Nat) (e : JSONError)
    (hs : trimSpace p ≠ doneSentinel) (hd : json.payload (trimSpace p) = .error e) :
    (processLines json limit resp ioErr ((headerData ++ p) :: rest) acc count reads).result =
      .error (.unmarshal e) := by
  unfold processLines
  simp [classify_headerData, hs, hd]

/-- C9: when the next line is a data line whose trimmed payload is not the
sentinel and does not decode, the receive call returns the decode error, the
session stores it as its terminal condition, and every later receive call
returns it again, without an event. -/
theorem Recv_decodeError {T : Type} (s : streamReader T) (json : Unmarshaler T)
    (resp : Response) (ioErr : Option IOError) (p : Bytes) (rest : List Bytes) (acc : Bytes)
    (count : Nat) (e : JSONError)
    (h : OpenAt s json resp ioErr ((headerData ++ p) :: rest) acc count)
    (hs : trimSpace p ≠ doneSentinel) (hd : json.payload (trimSpace p) = .error e) :
    ∃ s1, Recv s = some (.error (.unmarshal e), s1) ∧
      s1.terminalError = some (.unmarshal e) ∧
      ∀ n : Nat, recvN n s1 = some (List.replicate n (.error (.unmarshal e)), s1) := by
  obtain ⟨s1, h1, h2⟩ := Recv_open_error h (.unmarshal e)
    (processLines_decodeError json _ resp ioErr p rest acc count _ e hs hd)
  exact ⟨s1, h1, h2, recvN_sealed s1 _ h2⟩

/-- C9, at a data line that is not JSON, with a decodable frame after it. -/
theorem Recv_decodeError_witness :
    ∃ s1, Recv (exSession 300 "data: oops\ndata: \x7b\"id\":\"b\"\x7d\n") =
        some (.error (.unmarshal ⟨"invalid character"⟩), s1) ∧
      s1.terminalError = some (.unmarshal ⟨"invalid character"⟩) ∧
      ∀ n : Nat, recvN n s1 =
        some (List.replicate n (.error (.unmarshal ⟨"invalid character"⟩)), s1) :=
  Recv_decodeError (exSession 300 "data: oops\ndata: \x7b\"id\":\"b\"\x7d\n") exJSON
    (exResp "200 OK" 200 "data: oops\ndata: \x7b\"id\":\"b\"\x7d\n") none
    " oops".toList ["data: \x7b\"id\":\"b\"\x7d".toList] [] 0 ⟨"invalid character"⟩
    ⟨rfl, rfl, rfl, rfl, rfl, rfl⟩ (by decide) (by rfl)

theorem processLines_stall {T : Type} (json : Unmarshaler T) (limit : Nat)
    (resp : Response) (ioErr : Option IOError) (rest : List Bytes) (acc : Bytes) (n : Nat) :
    ∀ count reads : Nat, limit < count + (n + 1) →
      (processLines json limit resp ioErr (List.replicate (n + 1) [] ++ rest) acc count
        reads).result = .error .tooManyEmptyStreamMessages := by
  induction n with
  | zero =>
    intro count reads h
    have h1 : count + 1 > limit := by omega
    simp [processLines, classify_nil, h1]
  | succ n ih =>
    intro count reads h
    rw [List.replicate_succ, List.cons_append]
    unfold processLines
    by_cases h1 : count + 1 > limit
    · simp [classify_nil, h1]
    · simp only [classify_nil, List.isEmpty_nil, if_true, h1, if_false]
      exact ih (count + 1) (reads + 1) (by omega)

/-- C5: when the next lines are a run of more than `emptyMessagesLimit` empty
lines, the receive call returns the stall error, the session stores it as its
terminal condition, and every later receive call returns it again and leaves
the session, and so its reader and its count of transport reads, as it is. -/
theorem Recv_stall {T : Type} (s : streamReader T) (json : Unmarshaler T)
    (resp : Response) (ioErr : Option IOError) (n : Nat) (rest : List Bytes) (acc : Bytes)
    (count : Nat)
    (h : OpenAt s json resp ioErr (List.replicate n [] ++ rest) acc count)
    (hn : s.emptyMessagesLimit < n) :
    ∃ s1, Recv s = some (.error .tooManyEmptyStreamMessages, s1) ∧
      s1.terminalError = some .tooManyEmptyStreamMessages ∧
      ∀ m : Nat, recvN m s1 =
        some (List.replicate m (.error .tooManyEmptyStreamMessages), s1) := by
  obtain ⟨k, rfl⟩ : ∃ k, n = k + 1 := ⟨n - 1, by omega⟩
  obtain ⟨s1, h1, h2⟩ := Recv_open_error h .tooManyEmptyStreamMessages
    (processLines_stall json _ resp ioErr rest acc k count s.reads (by omega))
  exact ⟨s1, h1, h2, recvN_sealed s1 _ h2⟩

/-- C5, at a limit of 2 and a stream of three empty lines before a frame. -/
theorem Recv_stall_witness :
    ∃ s1, Recv (exSession 2 "\n\n\ndata: \x7b\"id\":\"a\"\x7d\n") =
        some (.error .tooManyEmptyStreamMessages, s1) ∧
      s1.terminalError = some .tooManyEmptyStreamMessages ∧
      ∀ m : Nat, recvN m s1 =
        some (List.replicate m (.error .tooManyEmptyStreamMessages), s1) :=
  Recv_stall (exSession 2 "\n\n\ndata: \x7b\"id\":\"a\"\x7d\n") exJSON
    (exResp "200 OK" 200 "\n\n\ndata: \x7b\"id\":\"a\"\x7d\n") none 3
    ["data: \x7b\"id\":\"a\"\x7d".toList] [] 0 ⟨rfl, rfl, rfl, rfl, rfl, rfl⟩ (by decide)

/-! ## The stream session: a plain error body -/

theorem classify_notData {T : Type} (decode : Bytes → Except JSONError T) (l : Bytes)
    (hb : l.all isSpace = false) (hp : headerData.isPrefixOf l = false) :
    classify decode l = .notData := by
  simp [classify, hb, hp]

theorem processLines_notData {T : Type} (json : Unmarshaler T) (limit : Nat)
    (resp : Response) (ioErr : Option IOError) (ls : List Bytes)
    (h : ∀ l ∈ ls, l.all isSpace = false ∧ headerData.isPrefixOf l = false) :
    ∀ (rest : List Bytes) (acc : Bytes) (count reads : Nat),
      processLines json limit resp ioErr (ls ++ rest) acc count reads =
        processLines json limit resp ioErr rest (acc ++ concatLines ls) count
          (reads + ls.length) := by
  induction ls with
  | nil => intro rest acc count reads; simp [concatLines]
  | cons l ls ih =>
    intro rest acc count reads
    have hl := h l (by simp)
    have hls : ∀ x ∈ ls, x.all isSpace = false ∧ headerData.isPrefixOf x = false :=
      fun x hx => h x (by simp [hx])
    rw [List.cons_append]
    conv_lhs => unfold processLines
    simp only [classify_notData json.payload l hl.1 hl.2]
    rw [ih hls]
    simp [concatLines, Nat.add_assoc, Nat.add_comm 1]

theorem processLines_skip_empty {T : Type} (json : Unmarshaler T) (limit : Nat)
    (resp : Response) (ioErr : Option IOError) (ls : List Bytes) (acc : Bytes) (k : Nat) :
    ∀ count reads : Nat, count + k ≤ limit →
      processLines json limit resp ioErr (List.replicate k [] ++ ls) acc count reads =
        processLines json limit resp ioErr ls acc (count + k) (reads + k) := by
  induction k with
  | zero => intro count reads _; simp
  | succ k ih =>
    intro count reads h
    rw [List.replicate_succ, List.cons_append]
    conv_lhs => unfold processLines
    have h1 : ¬ (count + 1 > limit) := by omega
    simp only [classify_nil, List.isEmpty_nil, if_true, h1, if_false]
    rw [ih (count + 1) (reads + 1) (by omega)]
    simp [Nat.add_assoc, Nat.add_comm 1]

theorem processLines_event {T : Type} (json : Unmarshaler T) (limit : Nat)
    (resp : Response) (ioErr : Option IOError) (f : Frame T) (rest : List Bytes) (acc : Bytes)
    (count reads : Nat) (hf : f.WellFormed json) :
    processLines json limit resp ioErr (dataLine f.payload :: rest) acc count reads =
      ⟨.ok f.value, rest, acc, 0, reads + 1⟩ := by
  unfold processLines
  simp [classify_dataLine, hf.2.1, hf.2.2]

theorem processLines_sentinel {T : Type} (json : Unmarshaler T) (limit : Nat)
    (resp : Response) (ioErr : Option IOError) (rest : List Bytes) (acc : Bytes)
    (count reads : Nat) :
    processLines json limit resp ioErr (dataLine doneSentinel :: rest) acc count reads =
      ⟨.error .eof, rest, acc, count, reads + 1⟩ := by
  unfold processLines
  have h : trimSpace doneSentinel = doneSentinel := by decide
  simp [classify_dataLine, h]

theorem dataLine_no_newline (p : Bytes) (hp : '\n' ∉ p) : '\n' ∉ dataLine p := by
  simp [dataLine, headerData, hp]

theorem frameLines_no_newline {T : Type} (fs : List (Frame T))
    (h : ∀ f ∈ fs, '\n' ∉ f.payload) : ∀ l ∈ frameLines fs, '\n' ∉ l := by
  induction fs with
  | nil => simp [frameLines]
  | cons f fs ih =>
    intro l hl
    simp only [frameLines, Frame.lines, List.cons_append, List.mem_cons, List.mem_append] at hl
    rcases hl with rfl | hl | hl
    · exact dataLine_no_newline _ (h f (by simp))
    · rw [(List.mem_replicate.1 hl).2]
      simp
    · exact ih (fun g hg => h g (by simp [hg])) l hl

/-- Receive calls on an open session whose remaining lines are `k` empty lines,
well-formed frames and the sentinel. -/
theorem recvN_frames {T : Type} (json : Unmarshaler T) (resp : Response)
    (ioErr : Option IOError) (tl : List Bytes) (acc : Bytes) (m : Nat) :
    ∀ (fs : List (Frame T)) (s : streamReader T) (k : Nat),
      OpenAt s json resp ioErr
        (List.replicate k [] ++ (frameLines fs ++ dataLine doneSentinel :: tl)) acc 0 →
      k ≤ s.emptyMessagesLimit →
      (∀ f ∈ fs, f.WellFormed json ∧ f.blanks ≤ s.emptyMessagesLimit) →
      ∃ s1, recvN (fs.length + 1 + m) s =
        some (fs.map (fun f => .ok f.value) ++ List.replicate (m + 1) (.error .eof), s1) := by
  intro fs
  induction fs with
  | nil =>
    intro s k hopen hk _
    obtain ⟨s1, h1, h2⟩ := Recv_open_error hopen .eof (by
      simp only [frameLines, List.nil_append]
      rw [processLines_skip_empty json _ resp ioErr _ acc k 0 s.reads (by omega),
        processLines_sentinel])
    refine ⟨s1, ?_⟩
    have h3 := recvN_sealed s1 .eof h2 m
    have hlen : ([] : List (Frame T)).length + 1 + m = m + 1 := by simp; omega
    rw [hlen]
    simp [recvN, h1, h3, List.replicate_succ]
  | cons f fs ih =>
    intro s k hopen hk hwf
    have hf := hwf f (by simp)
    obtain ⟨s1, h1, h2, h3, _⟩ := Recv_open_ok hopen f.value
      ⟨.ok f.value, List.replicate f.blanks [] ++ (frameLines fs ++ dataLine doneSentinel :: tl),
        acc, 0, s.reads + k + 1⟩ (by
      simp only [frameLines, Frame.lines, List.cons_append, List.append_assoc]
      rw [processLines_skip_empty json _ resp ioErr _ acc k 0 s.reads (by omega),
        processLines_event json _ resp ioErr f _ acc _ _ hf.1])
      rfl
    obtain ⟨s2, h4⟩ := ih s1 f.blanks h2 (by rw [h3]; exact hf.2)
      (fun g hg => by rw [h3]; exact hwf g (by simp [hg]))
    refine ⟨s2, ?_⟩
    have hlen : (f :: fs).length + 1 + m = (fs.length + 1 + m) + 1 := by simp; omega
    rw [hlen]
    simp [recvN, h1, h4]

/-- C1, amended: for a stream of well-formed frames, each followed by a run of
at most `EmptyMessagesLimit` blank lines, and terminated by the sentinel, the
receive calls on the session `sendRequestStream` opened return the decoded
payloads in wire order, then the end-of-stream signal, and every later call
returns the end-of-stream signal again, never an event. -/
theorem recvN_wellFormed {T : Type} (json : Unmarshaler T) (client : Client) (req : Request)
    (resp : Response) (fs : List (Frame T)) (tail : Bytes) (m : Nat)
    (hdo : client.config.HTTPClient (setStreamHeaders req) = .ok resp)
    (hok : isFailureStatusCode resp = false)
    (hbody : resp.Body.data =
      unlines (frameLines fs) ++ (wireLine (dataLine doneSentinel) ++ tail))
    (hwf : ∀ f ∈ fs, f.WellFormed json ∧ f.blanks ≤ client.config.EmptyMessagesLimit) :
    ∃ s1, recvN (fs.length + 1 + m) (sendRequestStream json client req).1 =
      some (fs.map (fun f => .ok f.value) ++ List.replicate (m + 1) (.error .eof), s1) := by
  have hsplit : splitLines resp.Body.data =
      frameLines fs ++ dataLine doneSentinel :: splitLines tail := by
    rw [hbody, splitLines_unlines _ _
        (frameLines_no_newline fs (fun f hf => (hwf f hf).1.1)),
      splitLines_wireLine _ _ (dataLine_no_newline _ (by decide))]
  have hopen : OpenAt (sendRequestStream json client req).1 json resp resp.Body.err
      (List.replicate 0 [] ++ (frameLines fs ++ dataLine doneSentinel :: splitLines tail))
      [] 0 := by
    rw [sendRequestStream_ok json client req resp hdo hok]
    simp [OpenAt, NewReader, NewErrorAccumulator, hsplit]
  have hlim : (sendRequestStream json client req).1.emptyMessagesLimit =
      client.config.EmptyMessagesLimit := by
    rw [sendRequestStream_ok json client req resp hdo hok]
  exact recvN_frames json resp resp.Body.err (splitLines tail) [] m fs _ 0 hopen
    (Nat.zero_le _) (fun f hf => by rw [hlim]; exact hwf f hf)

/-- C1, amended, at the stream of the spec's example and the default limit:
the events `a` and `b`, then the end-of-stream signal, twice over. -/
theorem recvN_wellFormed_witness :
    ∃ s1, recvN 4 (exSession 300 exStream) =
      some ([.ok "a", .ok "b", .error .eof, .error .eof], s1) :=
  recvN_wellFormed exJSON (exClient 300 (exResp "200 OK" 200 exStream)) exReq
    (exResp "200 OK" 200 exStream)
    [⟨"\x7b\"id\":\"a\"\x7d".toList, "a", 1⟩, ⟨"\x7b\"id\":\"b\"\x7d".toList, "b", 1⟩]
    "\n".toList 1 rfl rfl (by rfl)
    (by
      intro f hf
      simp only [List.mem_cons, List.mem_singleton, List.not_mem_nil, or_false] at hf
      rcases hf with rfl | rfl
      · exact ⟨⟨by decide, by decide, by rfl⟩, by decide⟩
      · exact ⟨⟨by decide, by decide, by rfl⟩, by decide⟩)

/-- C1, as stated, fails: with an empty-message limit of 0 the stream of the
spec's example yields the event `a` and then the stall error, not the event
`b` and the end-of-stream signal. -/
theorem recvN_wellFormed_counterexample :
    (recvN 3 (exSession 0 exStream)).map Prod.fst =
        some [.ok "a", .error .tooManyEmptyStreamMessages, .error .tooManyEmptyStreamMessages] ∧
      (recvN 3 (exSession 0 exStream)).map Prod.fst ≠
        some [.ok "a", .ok "b", .error .eof] := by
  have h : (recvN 3 (exSession 0 exStream)).map Prod.fst =
      some [.ok "a", .error .tooManyEmptyStreamMessages,
        .error .tooManyEmptyStreamMessages] := by rfl
  refine ⟨h, ?_⟩
  rw [h]
  intro hc
  simp at hc

/-! ## The stream session: blank keep-alive lines -/

theorem processLines_dropBlank {T : Type} (json : Unmarshaler T) (L L1 : Nat)
    (resp resp1 : Response) (ioErr : Option IOError)
    (hok : isFailureStatusCode resp = false) (hok1 : isFailureStatusCode resp1 = false) :
    ∀ (ls : List Bytes) (d c c1 r r1 : Nat),
      (∀ l ∈ ls, l.all isSpace = true ∨ headerData.isPrefixOf l = true) →
      blankRunsWithin L d ls = true → c ≤ d →
      (processLines json L resp ioErr ls [] c r).result =
          (processLines json L1 resp1 ioErr (dropBlank ls) [] c1 r1).result ∧
        (processLines json L1 resp1 ioErr (dropBlank ls) [] c1 r1).lines =
          dropBlank (processLines json L resp ioErr ls [] c r).lines ∧
        (processLines json L resp ioErr ls [] c r).acc = [] ∧
        (processLines json L1 resp1 ioErr (dropBlank ls) [] c1 r1).acc = [] ∧
        (∀ l ∈ (processLines json L resp ioErr ls [] c r).lines,
          l.all isSpace = true ∨ headerData.isPrefixOf l = true) ∧
        (∀ v, (processLines json L resp ioErr ls [] c r).result = .ok v →
          blankRunsWithin L 0 (processLines json L resp ioErr ls [] c r).lines = true) := by
  intro ls
  induction ls with
  | nil =>
    intro d c c1 r r1 _ _ _
    cases ioErr <;> simp [dropBlank, processLines, hok, hok1]
  | cons l ls ih =>
    intro d c c1 r r1 hls hruns hcd
    have hls1 : ∀ x ∈ ls, x.all isSpace = true ∨ headerData.isPrefixOf x = true :=
      fun x hx => hls x (by simp [hx])
    cases hb : l.all isSpace with
    | true =>
      have hdrop : dropBlank (l :: ls) = dropBlank ls := by simp [dropBlank, hb]
      have hcl : classify json.payload l = .skip := by simp [classify, hb]
      simp only [blankRunsWithin, hb, if_true, Bool.and_eq_true, decide_eq_true_eq] at hruns
      have heq : ∃ c2, c2 ≤ d + 1 ∧
          processLines json L resp ioErr (l :: ls) [] c r =
            processLines json L resp ioErr ls [] c2 (r + 1) := by
        by_cases he : l.isEmpty = true
        · have h1 : ¬ (c + 1 > L) := by omega
          exact ⟨c + 1, by omega, by
            conv_lhs => unfold processLines
            simp only [hcl, he, if_true, h1, if_false]⟩
        · exact ⟨c, by omega, by
            conv_lhs => unfold processLines
            simp only [hcl, he, if_false]
            simp⟩
      obtain ⟨c2, hc2, heq⟩ := heq
      rw [hdrop, heq]
      exact ih (d + 1) c2 c1 (r + 1) r1 hls1 hruns.2 hc2
    | false =>
      have hpre : headerData.isPrefixOf l = true := by
        rcases hls l (by simp) with h | h
        · rw [hb] at h
          exact absurd h (by simp)
        · exact h
      obtain ⟨p, rfl⟩ := List.isPrefixOf_iff_prefix.1 hpre
      have hdrop : dropBlank ((headerData ++ p) :: ls) = (headerData ++ p) :: dropBlank ls := by
        simp [dropBlank, hb]
      simp only [blankRunsWithin, hb] at hruns
      rw [hdrop]
      by_cases hsent : trimSpace p = doneSentinel
      · simpa [processLines, classify_headerData, hsent] using hls1
      · cases hdec : json.payload (trimSpace p) with
        | ok v =>
          simpa [processLines, classify_headerData, hsent, hdec] using And.intro hls1 hruns
        | error e =>
          simpa [processLines, classify_headerData, hsent, hdec] using hls1

theorem recvN_dropBlank {T : Type} (json : Unmarshaler T) (resp resp1 : Response)
    (ioErr : Option IOError)
    (hok : isFailureStatusCode resp = false) (hok1 : isFailureStatusCode resp1 = false) :
    ∀ (n : Nat) (s t : streamReader T) (ls : List Bytes),
      OpenAt s json resp ioErr ls [] 0 → OpenAt t json resp1 ioErr (dropBlank ls) [] 0 →
      (∀ l ∈ ls, l.all isSpace = true ∨ headerData.isPrefixOf l = true) →
      blankRunsWithin s.emptyMessagesLimit 0 ls = true →
      ∃ rs s1 t1, recvN n s = some (rs, s1) ∧ recvN n t = some (rs, t1) := by
  intro n
  induction n with
  | zero => intro s t ls _ _ _ _; exact ⟨[], s, t, rfl, rfl⟩
  | succ n ih =>
    intro s t ls hs ht hls hruns
    obtain ⟨hres, hlines, hacc, hacc1, hls2, hruns2⟩ :=
      processLines_dropBlank json s.emptyMessagesLimit t.emptyMessagesLimit resp resp1 ioErr
        hok hok1 ls 0 0 0 s.reads t.reads hls hruns (Nat.le_refl 0)
    cases hr : (processLines json s.emptyMessagesLimit resp ioErr ls [] 0 s.reads).result with
    | error e =>
      obtain ⟨s1, h1, h2⟩ := Recv_open_error hs e hr
      obtain ⟨t1, h3, h4⟩ := Recv_open_error ht e (by rw [← hres]; exact hr)
      exact ⟨.error e :: List.replicate n (.error e), s1, t1,
        by simp [recvN, h1, recvN_sealed s1 e h2 n],
        by simp [recvN, h3, recvN_sealed t1 e h4 n]⟩
    | ok v =>
      have hc := processLines_ok_count json _ resp ioErr ls [] 0 s.reads v hr
      have hr1 : (processLines json t.emptyMessagesLimit resp1 ioErr (dropBlank ls) [] 0
          t.reads).result = .ok v := by rw [← hres]; exact hr
      have hc1 := processLines_ok_count json _ resp1 ioErr (dropBlank ls) [] 0 t.reads v hr1
      obtain ⟨s1, h1, h2, h3, _⟩ := Recv_open_ok hs v _ rfl hr
      obtain ⟨t1, h4, h5, _, _⟩ := Recv_open_ok ht v _ rfl hr1
      rw [hacc, hc] at h2
      rw [hacc1, hc1, hlines] at h5
      obtain ⟨rs, s2, t2, h6, h7⟩ := ih s1 t1 _ h2 h5 hls2 (by rw [h3]; exact hruns2 v hr)
      exact ⟨.ok v :: rs, s2, t2, by simp [recvN, h1, h6], by simp [recvN, h4, h7]⟩

/-- C8: for a stream of data lines and blank lines in which no run of blank
lines is longer than the limit, any number of receive calls returns the same
results as on the stream with the blank lines removed, so that no blank line
yields an event; and `consecutiveEmptyReads` is 0 after every returned event. -/
theorem recvN_blank_invisible {T : Type} (json : Unmarshaler T) (client client1 : Client)
    (req req1 : Request) (resp resp1 : Response) (ls : List Bytes) (n : Nat)
    (hdo : client.config.HTTPClient (setStreamHeaders req) = .ok resp)
    (hdo1 : client1.config.HTTPClient (setStreamHeaders req1) = .ok resp1)
    (hok : isFailureStatusCode resp = false) (hok1 : isFailureStatusCode resp1 = false)
    (hbody : resp.Body.data = unlines ls)
    (hbody1 : resp1.Body = ⟨unlines (dropBlank ls), resp.Body.err⟩)
    (hls : ∀ l ∈ ls, '\n' ∉ l ∧ (l.all isSpace = true ∨ headerData.isPrefixOf l = true))
    (hruns : blankRunsWithin client.config.EmptyMessagesLimit 0 ls = true) :
    (∃ rs s1 t1, recvN n (sendRequestStream json client req).1 = some (rs, s1) ∧
      recvN n (sendRequestStream json client1 req1).1 = some (rs, t1)) ∧
    (∀ rs sk v s1, recvN n (sendRequestStream json client req).1 = some (rs, sk) →
      Recv sk = some (.ok v, s1) → s1.consecutiveEmptyReads = 0) := by
  refine ⟨?_, fun _ sk v s1 _ h => Recv_ok_count sk s1 v h⟩
  have hsplit : splitLines resp.Body.data = ls := by
    have h := splitLines_unlines ls [] (fun l hl => (hls l hl).1)
    simpa [hbody, splitLines] using h
  have hsplit1 : splitLines resp1.Body.data = dropBlank ls := by
    have h := splitLines_unlines (dropBlank ls) []
      (fun l hl => (hls l (List.mem_of_mem_filter hl)).1)
    simpa [hbody1, splitLines] using h
  have hs : OpenAt (sendRequestStream json client req).1 json resp resp.Body.err ls [] 0 := by
    rw [sendRequestStream_ok json client req resp hdo hok]
    simp [OpenAt, NewReader, NewErrorAccumulator, hsplit]
  have ht : OpenAt (sendRequestStream json client1 req1).1 json resp1 resp.Body.err
      (dropBlank ls) [] 0 := by
    rw [sendRequestStream_ok json client1 req1 resp1 hdo1 hok1]
    have hd : resp1.Body.data = unlines (dropBlank ls) := by rw [hbody1]
    have he : resp1.Body.err = resp.Body.err := by rw [hbody1]
    simp [OpenAt, NewReader, NewErrorAccumulator, hsplit1, he]
  have hlim : (sendRequestStream json client req).1.emptyMessagesLimit =
      client.config.EmptyMessagesLimit := by
    rw [sendRequestStream_ok json client req resp hdo hok]
  exact recvN_dropBlank json resp resp1 resp.Body.err hok hok1 n _ _ ls hs ht
    (fun l hl => (hls l hl).2) (by rw [hlim]; exact hruns)

/-- C8, at the stream of the spec's example against the same stream without
its blank lines, for three receive calls. -/
theorem recvN_blank_invisible_witness :
    ∃ rs s1 t1, recvN 3 (exSession 300 exStream) = some (rs, s1) ∧
      recvN 3 (exSession 300 exStreamNoBlank) = some (rs, t1) :=
  (recvN_blank_invisible exJSON (exClient 300 (exResp "200 OK" 200 exStream))
    (exClient 300 (exResp "200 OK" 200 exStreamNoBlank)) exReq exReq
    (exResp "200 OK" 200 exStream) (exResp "200 OK" 200 exStreamNoBlank) exStreamLines 3
    rfl rfl rfl rfl (by rfl) (by rfl) (by decide) (by rfl)).1

/-! ## Configuration -/

/-- C12: `fullURL` is the configured `BaseURL` followed by the suffix, whatever
setters are passed; for a client built from `DefaultConfig` it is
`https://ai.gitee.com/v1` followed by the suffix. -/
theorem fullURL_eq (c : Client) (suffix : String) (setters : List fullURLOption) :
    c.fullURL suffix setters = c.config.BaseURL ++ suffix ∧
    ∀ (netHTTP : HTTPDoer) (authToken : String),
      (NewClientWithConfig (DefaultConfig netHTTP authToken)).fullURL suffix setters =
        "https://ai.gitee.com/v1" ++ suffix :=
  ⟨rfl, fun _ _ => rfl⟩

/-- C15: `ClientConfig.String` is the constant `<GiteeAI API ClientConfig>`, so
any two configurations, whatever their auth tokens, give equal strings. -/
theorem ClientConfig_String_constant (c1 c2 : ClientConfig) :
    c1.String = "<GiteeAI API ClientConfig>" ∧ c1.String = c2.String :=
  ⟨rfl, rfl⟩

/-- C17: `isFailureStatusCode` is true exactly for the status codes below 200
or at least 400: true on every 1xx code, false on every 2xx and 3xx code, 200
and 399 included. -/
theorem isFailureStatusCode_range (resp : Response) :
    (isFailureStatusCode resp = true ↔ resp.StatusCode < 200 ∨ resp.StatusCode ≥ 400) ∧
    (100 ≤ resp.StatusCode ∧ resp.StatusCode ≤ 199 → isFailureStatusCode resp = true) ∧
    (200 ≤ resp.StatusCode ∧ resp.StatusCode ≤ 399 → isFailureStatusCode resp = false) := by
  have h := isFailureStatusCode_iff resp
  refine ⟨h, fun h1 => h.2 (Or.inl (by omega)), fun h2 => ?_⟩
  cases hf : isFailureStatusCode resp with
  | false => rfl
  | true =>
    rcases h.1 hf with h3 | h3
    · omega
    · omega

/-- C17, at the status codes 101, 200 and 399. -/
theorem isFailureStatusCode_range_witness :
    isFailureStatusCode (exResp "101 Switching Protocols" 101 "") = true ∧
    isFailureStatusCode (exResp "200 OK" 200 "") = false ∧
    isFailureStatusCode (exResp "399" 399 "") = false :=
  ⟨(isFailureStatusCode_range (exResp "101 Switching Protocols" 101 "")).2.1
      ⟨by decide, by decide⟩,
   (isFailureStatusCode_range (exResp "200 OK" 200 "")).2.2 ⟨by decide, by decide⟩,
   (isFailureStatusCode_range (exResp "399" 399 "")).2.2 ⟨by decide, by decide⟩⟩

/-- C18: `DefaultConfig` sets `EmptyMessagesLimit` to 300 for every auth token,
and a session that `sendRequestStream` returns with a nil error has the
client's configured `EmptyMessagesLimit` as its `emptyMessagesLimit`, which is
300 for a client made by `NewClient`. -/
theorem emptyMessagesLimit_from_config {T : Type} (json : Unmarshaler T) (req : Request) :
    (∀ (netHTTP : HTTPDoer) (authToken : String),
      (DefaultConfig netHTTP authToken).EmptyMessagesLimit = 300) ∧
    (∀ client : Client, (sendRequestStream json client req).2 = none →
      (sendRequestStream json client req).1.emptyMessagesLimit =
        client.config.EmptyMessagesLimit) ∧
    (∀ (netHTTP : HTTPDoer) (authToken : String),
      (sendRequestStream json (NewClient netHTTP authToken) req).2 = none →
      (sendRequestStream json (NewClient netHTTP authToken) req).1.emptyMessagesLimit = 300) := by
  have key : ∀ client : Client, (sendRequestStream json client req).2 = none →
      (sendRequestStream json client req).1.emptyMessagesLimit =
        client.config.EmptyMessagesLimit := by
    intro client hnil
    cases hdo : client.config.HTTPClient (setStreamHeaders req) with
    | error err => simp [sendRequestStream, hdo] at hnil
    | ok resp =>
      cases hf : isFailureStatusCode resp with
      | true =>
        have hne := handleErrorResp_ne_none json.errorResponse client resp
        simp [sendRequestStream, hdo, hf] at hnil
        exact absurd hnil hne
      | false => rw [sendRequestStream_ok json client req resp hdo hf]
  exact ⟨fun _ _ => rfl, key, fun netHTTP authToken hnil => key _ hnil⟩

/-- C18, at the default configuration with a transport that answers with the
stream of the spec's example. -/
theorem emptyMessagesLimit_from_config_witness :
    (sendRequestStream exJSON
      (NewClient (fun _ => .ok (exResp "200 OK" 200 exStream)) "token")
      exReq).1.emptyMessagesLimit = 300 :=
  (emptyMessagesLimit_from_config exJSON exReq).2.2
    (fun _ => .ok (exResp "200 OK" 200 exStream)) "token" (by rfl)

/-- C20: in the `RequestError` of the fallback branch of `handleErrorResp`,
`Err` is the partially decoded `APIError` when there is one, and otherwise the
JSON decoding error, which is nil for a body that decodes without an `error`
object. -/
theorem handleErrorResp_requestError_Err (jsonUnmarshal : ErrorUnmarshaler) (c : Client)
    (resp : Response)
    (hread : resp.Body.err = none)
    (hdec : (jsonUnmarshal resp.Body.data).err ≠ none ∨
      (jsonUnmarshal resp.Body.data).Error = none) :
    ∃ r : RequestError, handleErrorResp jsonUnmarshal c resp = some (.request r) ∧
      (∀ apiErr, (jsonUnmarshal resp.Body.data).Error = some apiErr →
        r.Err = some (.api apiErr)) ∧
      ((jsonUnmarshal resp.Body.data).Error = none →
        r.Err = (jsonUnmarshal resp.Body.data).err.map ErrCause.json) ∧
      ((jsonUnmarshal resp.Body.data).Error = none →
        (jsonUnmarshal resp.Body.data).err = none → r.Err = none) := by
  unfold handleErrorResp ReadAll
  cases he : (jsonUnmarshal resp.Body.data).err <;>
    cases hE : (jsonUnmarshal resp.Body.data).Error <;>
    simp_all

/-- C20, at the body `{}`, valid JSON without an `error` object: `Err` is nil. -/
theorem handleErrorResp_requestError_Err_witness :
    ∃ r : RequestError,
      handleErrorResp exErrorResponse (exClient 300 (exResp "500 Internal Server Error" 500 "\x7b\x7d"))
        (exResp "500 Internal Server Error" 500 "\x7b\x7d") = some (.request r) ∧
      r.Err = none :=
  (handleErrorResp_requestError_Err exErrorResponse _
    (exResp "500 Internal Server Error" 500 "\x7b\x7d") rfl (Or.inr (by rfl))).imp
    (fun _ h => ⟨h.1, h.2.2.2 (by rfl) (by rfl)⟩)

/-! ## Prompts, wrapped readers and closing -/

theorem itemsAreStrings_iff (xs : List AnyValue) :
    itemsAreStrings xs = true ↔ ∀ x ∈ xs, ∃ s, x = .string s := by
  induction xs with
  | nil => simp [itemsAreStrings]
  | cons x xs ih =>
    cases x <;> simp [itemsAreStrings, AnyValue.isString, ih]

/-- C19: `checkPromptType` is true exactly for a `string`, a `[]string`, and a
`[]any` whose elements are all strings; the empty `[]any` is accepted, the nil
prompt and a `[]any` with an element that is not a string are rejected. -/
theorem checkPromptType_iff (p : AnyValue) :
    (checkPromptType p = true ↔
      (∃ s, p = .string s) ∨ (∃ xs, p = .stringSlice xs) ∨
        (∃ xs, p = .anySlice xs ∧ ∀ x ∈ xs, ∃ s, x = .string s)) ∧
    checkPromptType (.anySlice []) = true ∧
    checkPromptType .nil = false ∧
    (∀ xs x, x ∈ xs → (∀ s, x ≠ .string s) → checkPromptType (.anySlice xs) = false) := by
  refine ⟨?_, rfl, rfl, ?_⟩
  · cases p with
    | nil => simp [checkPromptType, AnyValue.isString, AnyValue.isStringSlice]
    | string s => simp [checkPromptType, AnyValue.isString]
    | stringSlice xs => simp [checkPromptType, AnyValue.isString, AnyValue.isStringSlice]
    | anySlice xs =>
      simp [checkPromptType, AnyValue.isString, AnyValue.isStringSlice, itemsAreStrings_iff]
    | other t => simp [checkPromptType, AnyValue.isString, AnyValue.isStringSlice]
  · intro xs x hx hns
    cases h : checkPromptType (.anySlice xs) with
    | false => rfl
    | true =>
      simp only [checkPromptType, AnyValue.isString, AnyValue.isStringSlice, Bool.or_self,
        Bool.false_eq_true, if_false] at h
      obtain ⟨s, hs⟩ := (itemsAreStrings_iff xs).1 h x hx
      exact absurd hs (hns s)

/-- C19, at a `[]any` that holds a string and a nested slice. -/
theorem checkPromptType_iff_witness :
    checkPromptType (.anySlice [.string "a", .anySlice []]) = false :=
  (checkPromptType_iff (.anySlice [.string "a", .anySlice []])).2.2.2
    [.string "a", .anySlice []] (.anySlice []) (by simp)
    (fun s h => by cases h)

/-- C16: `WrapReader(r, n, c)` has content type `c`; its name is `n` when `n` is
not empty, otherwise the name of `r` when `r` has a `Name()` method, otherwise
the empty string. -/
theorem WrapReader_name (r : Option Reader) (n c : String) :
    (WrapReader r n c).ContentType = c ∧
    (n ≠ "" → (WrapReader r n c).Name = n) ∧
    (n = "" → ∀ m, namedName r = some m → (WrapReader r n c).Name = m) ∧
    (n = "" → namedName r = none → (WrapReader r n c).Name = "") := by
  refine ⟨rfl, ?_, ?_, ?_⟩
  · intro h
    simp [WrapReader, file.Name, h]
  · intro h m hm
    simp [WrapReader, file.Name, h, hm]
  · intro h hm
    simp [WrapReader, file.Name, h, hm]

/-- C16, at a named reader wrapped with and without a filename, and at an
unnamed reader wrapped without one. -/
theorem WrapReader_name_witness :
    (WrapReader (some ⟨⟨[], none⟩, some "cat.png"⟩) "mask.png" "image/png").Name = "mask.png" ∧
    (WrapReader (some ⟨⟨[], none⟩, some "cat.png"⟩) "" "image/png").Name = "cat.png" ∧
    (WrapReader (some ⟨⟨[], none⟩, none⟩) "" "image/png").Name = "" :=
  ⟨(WrapReader_name (some ⟨⟨[], none⟩, some "cat.png"⟩) "mask.png" "image/png").2.1
      (by decide),
   (WrapReader_name (some ⟨⟨[], none⟩, some "cat.png"⟩) "" "image/png").2.2.1 rfl
      "cat.png" rfl,
   (WrapReader_name (some ⟨⟨[], none⟩, none⟩) "" "image/png").2.2.2 rfl rfl⟩

/-- C11: for every session, the first `Close` leaves it closed, and a second
`Close` returns no error and leaves the session as the first one left it. -/
theorem Close_idempotent {T : Type} (s : streamReader T) :
    (Close s).2.closed = true ∧
    Close (Close s).2 = (none, (Close s).2) := by
  unfold Close
  cases h : s.closed <;> simp [h]

/-! ## Building and sending a request -/

theorem Header_Get_Set (h : Header) (key value : String) :
    (h.Set key value).Get key = value := by
  simp [Header.Set, Header.Get, List.lookup]

theorem Header_filter_Set (h : Header) (key value : String) :
    (h.Set key value).filter (fun kv => kv.1 = key) = [(key, [value])] := by
  simp [Header.Set, List.filter_cons, List.filter_filter]

/-- C13: with a non-empty auth token, every request `newRequest` returns
carries `Bearer ` followed by the token as its one `Authorization` value,
whatever the options and the builder supplied; with an empty token the request
is the builder's, untouched. -/
theorem newRequest_authorization {B : Type} (build : RequestBuilder B) (c : Client)
    (method url : String) (setters : List (requestOption B)) :
    (c.config.authToken ≠ "" →
      ∀ req, c.newRequest build method url setters = .ok req →
        req.Header.Get "Authorization" = "Bearer " ++ c.config.authToken ∧
        req.Header.filter (fun kv => kv.1 = "Authorization") =
          [("Authorization", ["Bearer " ++ c.config.authToken])]) ∧
    (c.config.authToken = "" →
      c.newRequest build method url setters =
        build method url (applySetters setters).body (applySetters setters).header) := by
  constructor
  · intro htok req hreq
    unfold Client.newRequest at hreq
    cases hb : build method url (applySetters setters).body (applySetters setters).header with
    | error err => simp [hb] at hreq
    | ok r =>
      simp only [hb, Except.ok.injEq] at hreq
      subst hreq
      simp only [Client.setCommonHeaders, htok, ne_eq, not_false_eq_true, if_true]
      exact ⟨Header_Get_Set _ _ _, Header_filter_Set _ _ _⟩
  · intro htok
    unfold Client.newRequest
    cases hb : build method url (applySetters setters).body (applySetters setters).header with
    | error err => simp [hb]
    | ok r => simp [hb, Client.setCommonHeaders, htok]

/-- C13, at a client with the token `token` and an option that had written
another `Authorization` value. -/
theorem newRequest_authorization_witness :
    (exClient 300 (exResp "200 OK" 200 "")).newRequest (exBuild : RequestBuilder Unit) "POST"
        "/chat/completions" [exWithAuthorization "Basic dXNlcg=="] =
      .ok ⟨"POST", "/chat/completions", [("Authorization", ["Bearer token"])], []⟩ ∧
    Header.Get [("Authorization", ["Bearer token"])] "Authorization" = "Bearer token" :=
  ⟨by rfl,
   ((newRequest_authorization (exBuild : RequestBuilder Unit)
      (exClient 300 (exResp "200 OK" 200 "")) "POST" "/chat/completions"
      [exWithAuthorization "Basic dXNlcg=="]).1 (by decide)
      ⟨"POST", "/chat/completions", [("Authorization", ["Bearer token"])], []⟩ (by rfl)).1⟩

/-- C14: for a request with `Stream` set, and for a request without it whose
prompt `checkPromptType` rejects, `CreateCompletion` returns the zero response
and an error, `ErrCompletionStreamNotSupported` in the first case and
`ErrCompletionRequestPromptTypeNotSupported` in the second, without a call to
the request builder or to the transport. -/
theorem CreateCompletion_rejects {C U : Type} (build : RequestBuilder CompletionRequest)
    (decode : Decoder (CompletionResponse C U)) (jsonUnmarshal : ErrorUnmarshaler)
    (c : Client) (request : CompletionRequest) :
    (request.Stream = true →
      c.CreateCompletion build decode jsonUnmarshal request =
        ⟨CompletionResponse.zero C U, some ErrCompletionStreamNotSupported, []⟩) ∧
    (request.Stream = false → checkPromptType request.Prompt = false →
      c.CreateCompletion build decode jsonUnmarshal request =
        ⟨CompletionResponse.zero C U, some ErrCompletionRequestPromptTypeNotSupported, []⟩) := by
  constructor
  · intro hs
    simp [Client.CreateCompletion, hs]
  · intro hs hp
    simp [Client.CreateCompletion, hs, hp, checkEndpointSupportsModel]

/-- C14, at a streaming request and at a request with a nil prompt. -/
theorem CreateCompletion_rejects_witness :
    (exClient 300 (exResp "200 OK" 200 "")).CreateCompletion exBuild exDecode exErrorResponse
        (exCompletionRequest (.string "Ex falso quodlibet") true) =
      ⟨CompletionResponse.zero Unit Unit, some ErrCompletionStreamNotSupported, []⟩ ∧
    (exClient 300 (exResp "200 OK" 200 "")).CreateCompletion exBuild exDecode exErrorResponse
        (exCompletionRequest .nil false) =
      ⟨CompletionResponse.zero Unit Unit, some ErrCompletionRequestPromptTypeNotSupported, []⟩ :=
  ⟨(CreateCompletion_rejects exBuild exDecode exErrorResponse
      (exClient 300 (exResp "200 OK" 200 ""))
      (exCompletionRequest (.string "Ex falso quodlibet") true)).1 rfl,
   (CreateCompletion_rejects exBuild exDecode exErrorResponse
      (exClient 300 (exResp "200 OK" 200 ""))
      (exCompletionRequest .nil false)).2 rfl rfl⟩

end giteeai
